import Mathlib

/-!
Verification development for the DashBot restaurant-recommendation chatbot
(`dashbot_app.py`, `fetch_serpapi_data.py`, `build_store.py`).

The Python sources are embedded shallowly:

* Python strings are Lean `String`s; the character-level pipelines
  (lower-casing, stripping, regex substitution) are transcribed as
  `List Char` transformers.  Case mapping is modelled for ASCII (like
  `Char.toLower`); for the regex character class `[^a-z0-9]` every
  non-ASCII character is collapsed to an underscore exactly as in Python,
  so the difference is immaterial for the properties proved here.
* Python `dict` metadata rows become the `Restaurant` structure.  The
  store builder (`build_store.py`) always populates `name`, `categories`,
  `address` and `zip_code` with strings, so those fields are total; the
  `rating` field is `Option String` so that the `r.get("rating")`
  missing-key case of the sort key remains representable.
* External collaborators (the Chroma vector store, the embedding model and
  the places fetcher) are oracles: a lookup function from collection name
  to the query's metadata rows, and a Bool for fetch-and-build success.
  The Groq LLM call is an `Except Unit String` oracle (`.error` models a
  raised exception at the call site).
* Python `float(...)` on rating strings is modelled as exact decimal
  parsing into `ℚ`; a string it cannot parse yields `none`, which models
  the `ValueError` that the surrounding `try`/`except` of
  `search_restaurants` turns into an empty result list.  (The ratings this
  pipeline stores are short decimal literals, for which decimal-to-double
  conversion is order-faithful.)
* `sorted(..., key=..., reverse=True)` is a stable descending sort and is
  modelled with the stable `List.mergeSort`.
-/

namespace Dashbot

/-! ## Python string primitives -/

/-- Characters matched by the regex class `[a-z0-9]`. -/
def isLA (c : Char) : Bool :=
  ('a' ≤ c && c ≤ 'z') || ('0' ≤ c && c ≤ '9')

/-- Word characters for the regex `\b` boundary (`[A-Za-z0-9_]`, ASCII). -/
def isWordChar (c : Char) : Bool :=
  c.isAlpha || c.isDigit || c = '_'

/-- Strip characters satisfying `p` from both ends of a list
(Python `str.strip` family). -/
def stripBoth (p : Char → Bool) (l : List Char) : List Char :=
  ((l.dropWhile p).reverse.dropWhile p).reverse

/-- Python `str.strip()` on the character list (whitespace strip). -/
def pyStripChars (l : List Char) : List Char :=
  stripBoth Char.isWhitespace l

/-- Python `str.strip()`. -/
def pyStrip (s : String) : String :=
  ⟨pyStripChars s.data⟩

/-- Python `str.lower()` (ASCII case mapping). -/
def strLower (s : String) : String :=
  ⟨s.data.map Char.toLower⟩

/-- Python substring containment `w in l` on character lists. -/
def subIn (w : List Char) (l : List Char) : Bool :=
  match l with
  | [] => w.isEmpty
  | _ :: cs => w.isPrefixOf l || subIn w cs

/-- Python `w in s` for strings. -/
def pyIn (w s : String) : Bool :=
  subIn w.data s.data

/-- Python `any(w in s for w in ws)`. -/
def anyIn (ws : List String) (s : String) : Bool :=
  ws.any (fun w => pyIn w s)

/-! ## normalize_craving (shared by all three scripts)

```python
def normalize_craving(craving):
    if not craving:
        return ""
    craving = craving.lower().strip()
    craving = re.sub(r"[^a-z0-9]+", "_", craving)
    craving = craving.strip("_")
    return craving
```
-/

/-- State machine for `re.sub(r"[^a-z0-9]+", "_", s)`: each maximal run of
characters outside `[a-z0-9]` becomes a single underscore.  The Bool is
true while inside a non-matching run whose underscore was already
emitted. -/
def collapseGo (inRun : Bool) : List Char → List Char
  | [] => []
  | c :: cs =>
    if isLA c then c :: collapseGo false cs
    else if inRun then collapseGo true cs
    else '_' :: collapseGo true cs

/-- `re.sub(r"[^a-z0-9]+", "_", ·)`. -/
def collapse (l : List Char) : List Char :=
  collapseGo false l

/-- Python `str.strip("_")`. -/
def stripU (l : List Char) : List Char :=
  stripBoth (fun c => c == '_') l

/-- `normalize_craving` from the sources (all three copies are
identical). -/
def normalize_craving (craving : String) : String :=
  if craving.data = [] then ""
  else ⟨stripU (collapse (pyStripChars (craving.data.map Char.toLower)))⟩

/-! ## Craving cleaning in search_restaurants (dashbot_app.py lines 107-122)

```python
craving = craving.lower().strip()
craving = re.sub(r"\b(hot|spicy|...|authentic)\b", "", craving, flags=re.I).strip()
craving = synonym_map.get(craving, craving)
```

A pattern `\bword\b` (each alternative is purely alphabetic) matches
exactly the maximal word-character runs that equal the word, so the
substitution removes those whole runs and keeps everything else. -/

/-- The fixed filler adjectives of the substitution pattern. -/
def fillerWords : List (List Char) :=
  ["hot", "spicy", "tasty", "delicious", "yummy", "good", "nice", "warm",
   "fresh", "best", "real", "authentic"].map String.data

/-- Split a list into maximal runs of characters agreeing on `p`; each run
is tagged with its `p` value.  Used to locate `\b` word boundaries. -/
def pushRun (p : Char → Bool) (c : Char) :
    List (Bool × List Char) → List (Bool × List Char)
  | [] => [(p c, [c])]
  | (b, run) :: rest =>
    if p c = b then (b, c :: run) :: rest else (p c, [c]) :: (b, run) :: rest

/-- All maximal runs of `l`, tagged by `p`. -/
def splitRuns (p : Char → Bool) (l : List Char) : List (Bool × List Char) :=
  l.foldr (pushRun p) []

/-- `re.sub(r"\b(hot|...|authentic)\b", "", l, flags=re.I)`: drop every
maximal word-character run that (case-insensitively) equals a filler. -/
def removeFillers (l : List Char) : List Char :=
  (splitRuns isWordChar l).foldr
    (fun br acc =>
      if br.1 && fillerWords.contains (br.2.map Char.toLower) then acc
      else br.2 ++ acc)
    []

/-- The literal synonym table `synonym_map.get(craving, craving)`. -/
def synonymLookup (c : String) : String :=
  if c = "ramen noodles" then "ramen"
  else if c = "noodles" then "ramen"
  else if c = "shawarma wrap" then "shawarma"
  else if c = "indian curry" then "indian"
  else if c = "mexican tacos" then "mexican"
  else c

/-- The craving-cleaning pipeline at the top of `search_restaurants`. -/
def cleanCraving (craving : String) : String :=
  synonymLookup (pyStrip ⟨removeFillers (pyStripChars (strLower craving).data)⟩)

/-! ## Collection naming (dashbot_app.py lines 48-51) -/

/-- The collection name computed by `get_collection_for_zip`:
`f"restaurants_{zip_code}{'_' + safe_craving if safe_craving else ''}"`. -/
def collectionNameFor (zip_code craving : String) : String :=
  "restaurants_" ++ zip_code ++
    (if normalize_craving craving = "" then ""
     else "_" ++ normalize_craving craving)

/-! ## Fetcher and builder naming (fetch_serpapi_data.py lines 165-167,
build_store.py lines 50-61) -/

/-- The CSV basename written by `fetch_restaurants`:
`safe_craving = normalize_craving(craving) if craving else "general"`,
`output_path = f"restaurants_{zip_code}_{safe_craving}.csv"`. -/
def fetchCsvBasename (zip_code craving : String) : String :=
  "restaurants_" ++ zip_code ++ "_" ++
    (if craving = "" then "general" else normalize_craving craving) ++ ".csv"

/-- Consume a literal list prefix, returning the remainder. -/
def dropLit (p l : List Char) : Option (List Char) :=
  if p.isPrefixOf l then some (l.drop p.length) else none

/-- Split before the LAST occurrence of `".csv"`: returns the prefix the
greedy group `(.*)` captures in `(.*)\.csv`, or `none` when `".csv"` does
not occur. -/
def lastCsv : List Char → Option (List Char)
  | [] => none
  | c :: cs =>
    match lastCsv cs with
    | some p => some (c :: p)
    | none =>
      if ['.', 'c', 's', 'v'].isPrefixOf (c :: cs) then some [] else none

/-- The regex's greedy `_?`: consume one leading underscore when
present. -/
def underscoreOpt : List Char → List Char
  | '_' :: t => t
  | l => l

/-- Models `re.search(r"restaurants_(\d+)_?(.*)\.csv", basename)` for
basenames that begin with the literal `restaurants_` (every basename this
repository produces does).  The greedy pieces are transcribed directly:
`(\d+)` is the maximal digit run, `_?` consumes one underscore when
present, and `(.*)` stretches to the last `".csv"`.  Since `'.' ≠ '_'`,
retrying `_?` empty can never succeed where this fails, and leftmost-match
backtracking to a later start or a shorter digit run cannot arise for
these basenames, so those regex-engine branches are not modelled. -/
def csvExtract (l : List Char) : Option (List Char × List Char) :=
  match dropLit ("restaurants_").data l with
  | none => none
  | some rest =>
    if (rest.takeWhile Char.isDigit).isEmpty then none
    else
      match lastCsv (underscoreOpt (rest.dropWhile Char.isDigit)) with
      | some g2 => some (rest.takeWhile Char.isDigit, g2)
      | none => none

/-- `safe_craving` as the builder derives it from the stripped group 2:
`craving = craving_raw if craving_raw else None`, then
`normalize_craving(craving) if craving else "general"`. -/
def buildSafe (raw : List Char) : List Char :=
  if pyStripChars raw = [] then ("general").data
  else (normalize_craving ⟨pyStripChars raw⟩).data

/-- `detected_zip = zip_code or "generic"` of the no-match branch. -/
def zipArgOr : Option String → String
  | some z => if z = "" then "generic" else z
  | none => "generic"

/-- The collection name `build_vector_store` derives from the CSV
basename (build_store.py lines 50-61); `zipArg` is the function's
`zip_code` argument, used only when the regex does not match. -/
def buildCollectionName (basename : String) (zipArg : Option String) : String :=
  match csvExtract basename.data with
  | some dsg2 =>
    ⟨("restaurants_").data ++ dsg2.1 ++
      (if buildSafe dsg2.2 = [] then [] else '_' :: buildSafe dsg2.2)⟩
  | none => "restaurants_" ++ zipArgOr zipArg ++ "_general"

/-! ## Restaurant metadata and rating keys -/

/-- One metadata row of a vector-store collection (build_store.py lines
124-133 always store the five fields as strings; `rating` is `Option` so
that the `r.get("rating")` missing-key case of the sort key stays
representable). -/
structure Restaurant where
  name : String
  categories : String
  rating : Option String
  address : String
  zip_code : String
deriving DecidableEq, Repr

/-- Value of a digit list (most significant first). -/
def digitsVal (l : List Char) : ℕ :=
  l.foldl (fun n c => 10 * n + (c.toNat - 48)) 0

/-- Python `float(s)` on plain decimal literals, as an exact rational:
optional whitespace and sign, then `digits`, `digits.digits` or
`.digits`.  Anything else (including the exotic float syntax this
pipeline never produces) is `none`, modelling the raised `ValueError`. -/
def pyFloatQ (s : String) : Option ℚ :=
  let l := stripBoth Char.isWhitespace s.data
  let sl : Bool × List Char :=
    match l with
    | '-' :: t => (true, t)
    | '+' :: t => (false, t)
    | _ => (false, l)
  let ip := sl.2.takeWhile Char.isDigit
  let rest := sl.2.drop ip.length
  let mk : ℕ → ℕ → Option ℚ := fun num den =>
    some (if sl.1 then -(mkRat num den) else mkRat num den)
  match rest with
  | [] => if ip = [] then none else mk (digitsVal ip) 1
  | '.' :: fr =>
    if fr.all Char.isDigit && !(ip = [] && fr = []) then
      mk (digitsVal ip * 10 ^ fr.length + digitsVal fr) (10 ^ fr.length)
    else none
  | _ => none

/-- The sort key of dashbot_app.py lines 161-167:
`float(r.get("rating", 0)) if r.get("rating") not in ["N/A", None, ""]
else 0`; `none` models the `ValueError` `float` raises on a
non-parseable string. -/
def ratingKey (r : Restaurant) : Option ℚ :=
  match r.rating with
  | none => some 0
  | some s => if s = "N/A" || s = "" then some 0 else pyFloatQ s

/-- The key value where it is defined. -/
def keyVal (r : Restaurant) : ℚ :=
  (ratingKey r).getD 0

/-- Precedence of the descending sort: `a` may come before `b` when `b`'s
key is at most `a`'s. -/
def rPrec (a b : Restaurant) : Prop :=
  keyVal b ≤ keyVal a

instance : DecidableRel rPrec := fun a b =>
  inferInstanceAs (Decidable (keyVal b ≤ keyVal a))

instance : IsTotal Restaurant rPrec :=
  ⟨fun a b => le_total (keyVal b) (keyVal a)⟩

instance : IsTrans Restaurant rPrec :=
  ⟨fun _ _ _ hab hbc => le_trans hbc hab⟩

/-- Lines 158-169 of `search_restaurants`: drop excluded names, sort the
rest by rating descending (Python `sorted` is a stable sort, modelled by
the stable `List.insertionSort`; `sorted` computes every key, so one
unparseable rating raises and the enclosing `try`/`except` returns `[]`),
and keep the first 3. -/
def rankRestaurants (rs : List Restaurant) (exclude : List String) :
    List Restaurant :=
  if (rs.filter (fun r => !(exclude.contains r.name))).all
      (fun r => (ratingKey r).isSome) then
    (List.insertionSort rPrec (rs.filter (fun r => !(exclude.contains r.name)))).take 3
  else []

/-- The error sentinel returned when fetch-and-build fails
(dashbot_app.py lines 131-139). -/
def sentinelRestaurant (zip_code : String) : Restaurant :=
  { name := "🍔 Uh oh!"
    categories := "System Notice"
    rating := some "N/A"
    address := "Could not fetch restaurant data. Please try again or check your ZIP code."
    zip_code := zip_code }

/-- The external store and fetcher, as oracles: `store1` is the Chroma
state at the first `get_collection_for_zip` (mapping a collection name to
the query's metadata rows, `none` for a missing or empty collection),
`fetchOk` is the outcome of `fetch_and_build_for_zip`, and `store2` is
the state at the re-lookup after the fetch. -/
structure SearchEnv where
  store1 : String → Option (List Restaurant)
  fetchOk : Bool
  store2 : String → Option (List Restaurant)

/-- `search_restaurants(craving, zip_code, neighborhood, exclude_names)`
(dashbot_app.py lines 103-178).  The embedded query string
`f"{craving} {neighborhood or ''} {zip_code}"` only feeds the store
oracle, so `neigh` is carried but not consumed. -/
def search_restaurants (craving zip_code _neigh : String)
    (exclude : List String) (env : SearchEnv) : List Restaurant :=
  match env.store1 (collectionNameFor zip_code (cleanCraving craving)) with
  | some rs => rankRestaurants rs exclude
  | none =>
    if env.fetchOk then
      match env.store2 (collectionNameFor zip_code (cleanCraving craving)) with
      | some rs => rankRestaurants rs exclude
      | none => []
    else [sentinelRestaurant zip_code]

/-! ## Session state -/

/-- The dialogue stages of the conversation state machine. -/
inductive Stage
  | name
  | zip
  | neighborhood
  | craving
deriving DecidableEq, Repr

/-- The per-conversation mutable `session_state`.  The `hasattr` defaults
at the top of `dashbot_reply` make `last_restaurants`/`last_craving`
always present, so they are plain fields; `neighborhood` is read through
`getattr(..., "")` and is likewise a total field. -/
structure Session where
  stage : Stage
  name : String
  zip_code : String
  neighborhood : String
  last_craving : Option String
  last_restaurants : List Restaurant
deriving DecidableEq, Repr

/-- Python truthiness of `session_state.last_craving`. -/
def cravingTruthy (st : Session) : Bool :=
  match st.last_craving with
  | none => false
  | some c => c != ""

/-- `session_state.last_craving or d` (used with "food" and "great"). -/
def cravingOr (st : Session) (d : String) : String :=
  match st.last_craving with
  | none => d
  | some c => if c = "" then d else c

/-! ## Tone detection and generate_response (dashbot_app.py lines 184-295) -/

def angryWords : List String :=
  ["angry", "upset", "frustrated", "mad", "annoyed", "pissed"]

def happyWords : List String :=
  ["thank you", "thanks", "perfect", "awesome", "great", "love it", "ok thanks"]

def goodbyeWords : List String :=
  ["bye", "see you", "goodnight", "take care"]

inductive Tone
  | frustrated
  | grateful
  | neutral
deriving DecidableEq, Repr

/-- Tone detection on `user_input.lower().strip()`: angry keywords win,
then happy, then goodbye (both mapped to "grateful"), else neutral. -/
def toneOf (ul : String) : Tone :=
  if anyIn angryWords ul then Tone.frustrated
  else if anyIn happyWords ul then Tone.grateful
  else if anyIn goodbyeWords ul then Tone.grateful
  else Tone.neutral

def frustratedReply (nm : String) : String :=
  "I\x27m really sorry you\x27re feeling frustrated, " ++ nm ++
    " 😔 Let\x27s fix this! Maybe tell me exactly what kind of food you\x27re craving or your nearby street name? ❤️"

def gratefulReply (nm : String) : String :=
  "Aww, thank you " ++ nm ++
    "! 💖 I\x27m so glad I could help. Enjoy your meal and see you soon 🍜✨"

def notFoundReply (st : Session) : String :=
  "Looks like I couldn\x27t find any " ++ cravingOr st "food" ++
    " spots around " ++ st.zip_code ++ " 😅 Maybe try another ZIP or craving?"

/-- The suffix the successful LLM path appends (line 282). -/
def successSuffix : String :=
  "\n\n💡 *You can find these easily on DoorDash!*"

/-- The promotional sentence of the exception fallback (line 294). -/
def fallbackSuffix : String :=
  "💡 *Try searching these on DoorDash!*"

/-- One numbered line pair of the fallback enumeration (lines 291-293). -/
def enumLinesGo (i : ℕ) : List Restaurant → String
  | [] => ""
  | r :: rest =>
    toString i ++ ". **" ++ r.name ++ "** (" ++ r.categories ++ ") ⭐ " ++
      r.rating.getD "" ++ "\n" ++ "   📍 " ++ r.address ++ "\n\n" ++
      enumLinesGo (i + 1) rest

/-- The deterministic non-LLM fallback (lines 290-295). -/
def fallbackReply (restaurants : List Restaurant) (st : Session) : String :=
  "Here are " ++ toString restaurants.length ++ " " ++ cravingOr st "great" ++
    " spots, " ++ st.name ++ "! 😋\n\n" ++ enumLinesGo 1 restaurants ++
    "Which one sounds best? 🍽️✨\n\n" ++ fallbackSuffix

/-- `generate_response` after the tone short-circuits: empty-list check,
sentinel check, the restaurant-context build (whose `r["rating"]` lookup
raises `KeyError` when a rating key is absent — an `.error` result; the
reachable metadata always carries the key), then the LLM call with its
`try`/`except` fallback.  The Bool records whether the LLM call site was
reached. -/
def genMain (restaurants : List Restaurant) (st : Session)
    (llm : Except Unit String) : Except Unit String × Bool :=
  match restaurants with
  | [] => (Except.ok (notFoundReply st), false)
  | r0 :: _ =>
    if r0.name = "🍔 Uh oh!" then (Except.ok r0.address, false)
    else if restaurants.all (fun r => r.rating.isSome) then
      match llm with
      | Except.ok reply => (Except.ok (pyStrip reply ++ successSuffix), true)
      | Except.error _ => (Except.ok (fallbackReply restaurants st), true)
    else (Except.error (), false)

/-- `generate_response(user_input, restaurants, session_state)`
(dashbot_app.py lines 184-295), with the LLM outcome as an oracle. -/
def generate_response (user_input : String) (restaurants : List Restaurant)
    (st : Session) (llm : Except Unit String) : Except Unit String × Bool :=
  let ul := pyStrip (strLower user_input)
  match toneOf ul with
  | Tone.frustrated => (Except.ok (frustratedReply st.name), false)
  | Tone.grateful =>
    if pyIn "thank" ul || pyIn "bye" ul then
      (Except.ok (gratefulReply st.name), false)
    else genMain restaurants st llm
  | Tone.neutral => genMain restaurants st llm

/-! ## Name extraction (dashbot_app.py lines 309-318) -/

/-- Python `s.replace(old, "")` for a fixed nonempty `old`: remove every
occurrence, scanning left to right.  Structural recursion on a character
budget: every step consumes at least one character, so a budget of the
list's length (supplied by `replaceAll`) never runs out. -/
def replaceAllGo (old : List Char) : ℕ → List Char → List Char
  | _, [] => []
  | 0, l => l
  | fuel + 1, c :: cs =>
    if old ≠ [] ∧ old.isPrefixOf (c :: cs) then
      replaceAllGo old fuel ((c :: cs).drop old.length)
    else c :: replaceAllGo old fuel cs

/-- Python `s.replace(old, "")`. -/
def replaceAll (old l : List Char) : List Char :=
  replaceAllGo old l.length l

def introPhrases : List String :=
  ["my name is", "i am", "i\x27m", "call me"]

/-- The `for phrase in [...]: cleaned = cleaned.replace(phrase, "")`
loop. -/
def stripIntro (l : List Char) : List Char :=
  introPhrases.foldl (fun acc p => replaceAll p.data acc) l

/-- Python `str.split()`: the maximal non-whitespace runs. -/
def wordsOf (l : List Char) : List (List Char) :=
  (splitRuns (fun c => !c.isWhitespace) l).foldr
    (fun br acc => if br.1 then br.2 :: acc else acc) []

/-- `split()[-1]` (callers guard non-emptiness). -/
def lastWord (l : List Char) : List Char :=
  ((wordsOf l).getLast?).getD []

/-- Python `str.capitalize()` (ASCII): first character upper-cased, the
rest lower-cased. -/
def pyCapitalize : List Char → List Char
  | [] => []
  | c :: cs => c.toUpper :: cs.map Char.toLower

/-- Python `str.isalpha()` (ASCII letters): nonempty and all
alphabetic. -/
def pyIsAlpha (s : String) : Bool :=
  !s.data.isEmpty && s.data.all Char.isAlpha

/-! ## ZIP extraction (`re.search(r"\b\d{5}\b", user_input)`) -/

/-- Leftmost match of `\b\d{5}\b`: five digits preceded and followed by a
word boundary.  `prevW` says whether the previous character is a word
character. -/
def findZipGo (prevW : Bool) : List Char → Option (List Char)
  | [] => none
  | c :: cs =>
    let five := (c :: cs).take 5
    if !prevW && five.length = 5 && five.all Char.isDigit &&
        (match (c :: cs).drop 5 with
         | [] => true
         | d :: _ => !isWordChar d) then
      some five
    else findZipGo (isWordChar c) cs

/-- `zip_match.group(0)` of the leftmost `\b\d{5}\b` match, if any. -/
def findZip (s : String) : Option String :=
  (findZipGo false s.data).map (fun l => ⟨l⟩)

/-! ## dashbot_reply (dashbot_app.py lines 301-416) -/

def helpWords : List String :=
  ["help", "find", "don\x27t know", "unknown"]

def movedPhrases : List String :=
  ["moved", "new city", "different area", "relocated", "i\x27m in"]

def moreWords : List String :=
  ["more", "another", "else", "different"]

def selWords : List String :=
  ["first", "second", "third", "this one", "that one", "sounds good",
   "perfect", "1", "2", "3"]

def orderWords : List String :=
  ["order", "menu", "link", "doordash"]

instance : DecidableEq (Except Unit String) := fun a b =>
  match a, b with
  | Except.ok x, Except.ok y =>
    decidable_of_iff (x = y) ⟨fun h => h ▸ rfl, fun h => by cases h; rfl⟩
  | Except.error x, Except.error y => isTrue (by cases x; cases y; rfl)
  | Except.ok _, Except.error _ => isFalse (fun h => nomatch h)
  | Except.error _, Except.ok _ => isFalse (fun h => nomatch h)

/-- Result of one turn: the reply (or a propagated exception), the
session after the turn's in-place mutations, and whether the restaurant
search and the LLM call site were reached during the turn. -/
structure TurnOut where
  result : Except Unit String
  session : Session
  searchCalled : Bool
  llmCalled : Bool
deriving DecidableEq, Repr

/-- The `name` stage (lines 309-318). -/
def nameStage (input : String) (st : Session) : TurnOut :=
  let cleaned := stripIntro (strLower input).data
  let nm0 : String :=
    if pyStripChars cleaned = [] then "Friend"
    else ⟨pyCapitalize (lastWord cleaned)⟩
  let nm := if pyIsAlpha nm0 then nm0 else "Friend"
  { result := Except.ok ("Nice to meet you, " ++ nm ++ "! 🥰 What\x27s your ZIP code?")
    session := { st with name := nm, stage := Stage.zip }
    searchCalled := false
    llmCalled := false }

def zipHelpText : String :=
  "No worries! 💌 Here\x27s how to find it:\n🔍 Google \x27what is my zip code\x27\n📱 Or visit: https://www.zip-codes.com/search.asp\n\nThen tell me your 5-digit ZIP!"

def zipOkText (z : String) : String :=
  "Perfect! ZIP " ++ z ++
    " 📍\n\nWhat neighborhood are you in? (e.g., Downtown, Capitol Hill)\nOr type \x27skip\x27 for the whole area!"

def zipBadText : String :=
  "Hmm, that doesn\x27t look valid 🤔 Try entering a 5-digit ZIP (like 98105)."

/-- The `zip` stage (lines 321-337): the help-keyword check runs before
the 5-digit search. -/
def zipStage (input : String) (st : Session) : TurnOut :=
  if anyIn helpWords (strLower input) then
    { result := Except.ok zipHelpText
      session := st
      searchCalled := false
      llmCalled := false }
  else
    match findZip input with
    | some z =>
      { result := Except.ok (zipOkText z)
        session := { st with zip_code := z, stage := Stage.neighborhood }
        searchCalled := false
        llmCalled := false }
    | none =>
      { result := Except.ok zipBadText
        session := st
        searchCalled := false
        llmCalled := false }

/-- The `neighborhood` stage (lines 340-348). -/
def neighborhoodStage (input : String) (st : Session) : TurnOut :=
  if pyIn "skip" (strLower input) then
    { result := Except.ok ("No problem! I\x27ll look all around " ++ st.zip_code ++ " 🍽️ What are you craving?")
      session := { st with neighborhood := "", stage := Stage.craving }
      searchCalled := false
      llmCalled := false }
  else
    { result := Except.ok ("Awesome! Searching near " ++ pyStrip input ++ " 🎯 What are you craving?")
      session := { st with neighborhood := pyStrip input, stage := Stage.craving }
      searchCalled := false
      llmCalled := false }

def movedText : String :=
  "No worries! Let\x27s update your location 🏡 What\x27s your new ZIP code?"

def switchText (z : String) : String :=
  "Got it! Switched to ZIP " ++ z ++ " 📍 What are you craving?"

def moreClarifyText : String :=
  "Sure! What kind of food are you in the mood for? 😊"

def choiceText (nm rname addr : String) : String :=
  "Yay, " ++ nm ++ "! 🎉 Great choice — **" ++ rname ++
    "** is a local favorite!\n\n📍 " ++ addr ++ "\n\nSearch for \x27" ++
    rname ++ "\x27 on the DoorDash app to order! 🍕✨"

def orderText (rname : String) : String :=
  "Ready to order from **" ++ rname ++ "**? 🍽️\n\nSearch \x27" ++ rname ++
    "\x27 on the DoorDash app!"

def cravingFirstText : String :=
  "Tell me what you\x27re craving first 😄"

/-- The selection logic of lines 381-389 (`None` only when the list is
empty, in which case the Python code falls through past the branch). -/
def chooseFrom (ut : String) (l : List Restaurant) : Option Restaurant :=
  match l with
  | [] => none
  | r0 :: _ =>
    if pyIn "first" ut || pyIn "1" ut then some r0
    else if (pyIn "second" ut || pyIn "2" ut) && decide (1 < l.length) then l[1]?
    else if (pyIn "third" ut || pyIn "3" ut) && decide (2 < l.length) then l[2]?
    else some r0

/-- The final craving-stage branch (lines 406-414): treat the raw input
as a new craving, search, and respond. -/
def cravingNew (input : String) (st : Session) (senv : SearchEnv)
    (llm : Except Unit String) : TurnOut :=
  let st1 := { st with last_craving := some input }
  let rs := search_restaurants input st.zip_code st.neighborhood [] senv
  let st2 := { st1 with last_restaurants := rs }
  let g := generate_response input rs st2 llm
  { result := g.1, session := st2, searchCalled := true, llmCalled := g.2 }

/-- The order-keywords branch (lines 399-404), else the new-craving
branch. -/
def cravingOrderNew (input ut : String) (st : Session) (senv : SearchEnv)
    (llm : Except Unit String) : TurnOut :=
  if anyIn orderWords ut then
    match st.last_restaurants with
    | top :: _ =>
      { result := Except.ok (orderText top.name)
        session := st
        searchCalled := false
        llmCalled := false }
    | [] =>
      { result := Except.ok cravingFirstText
        session := st
        searchCalled := false
        llmCalled := false }
  else cravingNew input st senv llm

/-- The selection branch (lines 379-397); with no prior results the
Python `if` has no `else` and control falls through. -/
def cravingSel (input ut : String) (st : Session) (senv : SearchEnv)
    (llm : Except Unit String) : TurnOut :=
  if anyIn selWords ut then
    match chooseFrom ut st.last_restaurants with
    | some c =>
      { result := Except.ok (choiceText st.name c.name c.address)
        session := st
        searchCalled := false
        llmCalled := false }
    | none => cravingOrderNew input ut st senv llm
  else cravingOrderNew input ut st senv llm

/-- The "more"/"another" branch (lines 366-377). -/
def cravingMore (input ut : String) (st : Session) (senv : SearchEnv)
    (llm : Except Unit String) : TurnOut :=
  if anyIn moreWords ut then
    if cravingTruthy st && !st.last_restaurants.isEmpty then
      let lc := st.last_craving.getD ""
      let exclude := st.last_restaurants.map Restaurant.name
      let rs := search_restaurants lc st.zip_code st.neighborhood exclude senv
      let st1 := { st with last_restaurants := rs }
      let g := generate_response lc rs st1 llm
      { result := g.1, session := st1, searchCalled := true, llmCalled := g.2 }
    else
      { result := Except.ok moreClarifyText
        session := st
        searchCalled := false
        llmCalled := false }
  else cravingSel input ut st senv llm

/-- The `craving` stage (lines 351-414): moved-phrases check, in-stage
ZIP switch (falling through when the found ZIP equals the current one),
then the more/selection/order/new-craving cascade. -/
def cravingStage (input : String) (st : Session) (senv : SearchEnv)
    (llm : Except Unit String) : TurnOut :=
  let ut := pyStrip (strLower input)
  if anyIn movedPhrases ut then
    { result := Except.ok movedText
      session := { st with stage := Stage.zip }
      searchCalled := false
      llmCalled := false }
  else
    match findZip input with
    | some z =>
      if z ≠ st.zip_code then
        { result := Except.ok (switchText z)
          session := { st with zip_code := z }
          searchCalled := false
          llmCalled := false }
      else cravingMore input ut st senv llm
    | none => cravingMore input ut st senv llm

/-- `dashbot_reply(user_input, session_state)` (lines 301-416). -/
def dashbot_reply (input : String) (st : Session) (senv : SearchEnv)
    (llm : Except Unit String) : TurnOut :=
  match st.stage with
  | Stage.name => nameStage input st
  | Stage.zip => zipStage input st
  | Stage.neighborhood => neighborhoodStage input st
  | Stage.craving => cravingStage input st senv llm

/-- Python `s.endswith(suffix)` / "ends with" on strings. -/
def strEndsWith (s suffix : String) : Bool :=
  suffix.data.isSuffixOf s.data

/-! ## Concrete fixtures used by witnesses and counterexamples -/

def rst42 : Restaurant := ⟨"Alder Thai", "Thai", some "4.2", "1 Alder St", "98105"⟩

def rstNA : Restaurant := ⟨"Brick Oven", "Pizza", some "N/A", "2 Brick Ave", "98105"⟩

def rst48 : Restaurant := ⟨"Cedar Ramen", "Ramen", some "4.8", "3 Cedar Way", "98105"⟩

def rstBad : Restaurant := ⟨"Dill Deli", "Deli", some "five", "4 Dill Rd", "98105"⟩

/-- Store with one collection holding the three concrete rows; fetch
fails. -/
def envABC : SearchEnv := ⟨fun _ => some [rst42, rstNA, rst48], false, fun _ => none⟩

/-- Store whose single collection holds a row with a non-parseable
rating. -/
def envBad : SearchEnv := ⟨fun _ => some [rstBad], false, fun _ => none⟩

/-- Store with no collections and a failing fetch. -/
def envMiss : SearchEnv := ⟨fun _ => none, false, fun _ => none⟩

/-- Store whose collections exist but whose query returns no rows. -/
def envEmpty : SearchEnv := ⟨fun _ => some [], true, fun _ => some []⟩

def sessName0 : Session := ⟨Stage.name, "", "", "", none, []⟩

def sessZip0 : Session := ⟨Stage.zip, "Sam", "00000", "", none, []⟩

def sessCrav0 : Session := ⟨Stage.craving, "Sam", "98105", "", none, []⟩

/-! ## Character and list lemmas -/

theorem toNat_le_of_le {a b : Char} (h : a ≤ b) : a.toNat ≤ b.toNat := by
  rw [Char.le_def, UInt32.le_def] at h
  exact h

theorem isLA_ranges {c : Char} (h : isLA c = true) :
    (97 ≤ c.toNat ∧ c.toNat ≤ 122) ∨ (48 ≤ c.toNat ∧ c.toNat ≤ 57) := by
  simp only [isLA, Bool.or_eq_true, Bool.and_eq_true, decide_eq_true_eq] at h
  rcases h with ⟨h1, h2⟩ | ⟨h1, h2⟩
  · exact Or.inl ⟨toNat_le_of_le h1, toNat_le_of_le h2⟩
  · exact Or.inr ⟨toNat_le_of_le h1, toNat_le_of_le h2⟩

theorem toLower_eq_self {c : Char} (h : isLA c = true ∨ c = '_') :
    c.toLower = c := by
  rcases h with h | rfl
  · have hr := isLA_ranges h
    have h2 : ¬(c.toNat ≥ 65 ∧ c.toNat ≤ 90) := by omega
    simp [Char.toLower, h2]
  · decide

theorem not_ws_of_charset {c : Char} (h : isLA c = true ∨ c = '_') :
    c.isWhitespace = false := by
  rcases h with h | rfl
  · have hr := isLA_ranges h
    simp only [Char.isWhitespace, Bool.or_eq_false_iff, decide_eq_false_iff_not]
    refine ⟨⟨⟨?_, ?_⟩, ?_⟩, ?_⟩ <;> intro he <;> subst he <;> revert hr <;> decide
  · decide

theorem dropWhile_head_not {p : Char → Bool} :
    ∀ {l : List Char} {a : Char}, (l.dropWhile p).head? = some a → p a = false := by
  intro l
  induction l with
  | nil => intro a h; simp [List.dropWhile] at h
  | cons c cs ih =>
    intro a h
    rw [List.dropWhile_cons] at h
    by_cases hc : p c = true
    · rw [if_pos hc] at h
      exact ih h
    · rw [if_neg hc] at h
      simp only [List.head?_cons, Option.some.injEq] at h
      subst h
      exact Bool.not_eq_true _ ▸ hc

theorem dropWhile_eq_self_of_head {p : Char → Bool} {l : List Char}
    (h : ∀ a, l.head? = some a → p a = false) : l.dropWhile p = l := by
  cases l with
  | nil => rfl
  | cons c cs =>
    rw [List.dropWhile_cons]
    simp [h c rfl]

theorem dropWhile_getLast? {p : Char → Bool} :
    ∀ {l : List Char} {a : Char},
      (l.dropWhile p).getLast? = some a → l.getLast? = some a := by
  intro l
  induction l with
  | nil => intro a h; simp [List.dropWhile] at h
  | cons c cs ih =>
    intro a h
    rw [List.dropWhile_cons] at h
    by_cases hc : p c = true
    · rw [if_pos hc] at h
      have hcs : cs ≠ [] := by
        intro he
        subst he
        simp [List.dropWhile] at h
      cases cs with
      | nil => exact absurd rfl hcs
      | cons d ds => rw [List.getLast?_cons_cons]; exact ih h
    · rw [if_neg hc] at h
      exact h

theorem mem_of_stripBoth {p : Char → Bool} {l : List Char} {a : Char}
    (h : a ∈ stripBoth p l) : a ∈ l := by
  unfold stripBoth at h
  rw [List.mem_reverse] at h
  have h2 : a ∈ (l.dropWhile p).reverse :=
    (List.dropWhile_suffix p).sublist.mem h
  rw [List.mem_reverse] at h2
  exact (List.dropWhile_suffix p).sublist.mem h2

theorem stripBoth_head? {p : Char → Bool} {l : List Char} {a : Char}
    (h : (stripBoth p l).head? = some a) : p a = false := by
  unfold stripBoth at h
  rw [List.head?_reverse] at h
  have h2 := dropWhile_getLast? h
  rw [List.getLast?_reverse] at h2
  exact dropWhile_head_not h2

theorem stripBoth_getLast? {p : Char → Bool} {l : List Char} {a : Char}
    (h : (stripBoth p l).getLast? = some a) : p a = false := by
  unfold stripBoth at h
  rw [List.getLast?_reverse] at h
  exact dropWhile_head_not h

theorem stripBoth_eq_self {p : Char → Bool} {l : List Char}
    (h1 : ∀ a, l.head? = some a → p a = false)
    (h2 : ∀ a, l.getLast? = some a → p a = false) : stripBoth p l = l := by
  unfold stripBoth
  rw [dropWhile_eq_self_of_head h1]
  rw [dropWhile_eq_self_of_head (fun a ha => h2 a (by rwa [List.head?_reverse] at ha))]
  exact List.reverse_reverse l

theorem map_eq_self_of {f : Char → Char} :
    ∀ {l : List Char}, (∀ c ∈ l, f c = c) → l.map f = l := by
  intro l h
  induction l with
  | nil => rfl
  | cons c cs ih =>
    simp only [List.map_cons]
    rw [h c (by simp), ih (fun d hd => h d (by simp [hd]))]

/-! ## Structure of `collapse` output -/

/-- Adjacent characters of a collapsed list are never both
underscores. -/
def stepOK (a b : Char) : Prop := ¬(a = '_' ∧ b = '_')

theorem collapseGo_cons (b : Bool) (c : Char) (cs : List Char) :
    collapseGo b (c :: cs) =
      if isLA c then c :: collapseGo false cs
      else if b then collapseGo true cs else '_' :: collapseGo true cs := rfl

theorem collapseGo_mem :
    ∀ (b : Bool) (l : List Char) (c : Char), c ∈ collapseGo b l →
      isLA c = true ∨ c = '_' := by
  intro b l
  induction l generalizing b with
  | nil => intro c hc; simp [collapseGo] at hc
  | cons d ds ih =>
    intro c hc
    by_cases hd : isLA d = true
    · simp only [collapseGo, hd, if_pos, List.mem_cons] at hc
      rcases hc with rfl | hc
      · exact Or.inl hd
      · exact ih false c hc
    · cases b with
      | true =>
        simp only [collapseGo, hd, if_neg, Bool.false_eq_true, if_true] at hc
        exact ih true c hc
      | false =>
        simp only [collapseGo, hd, Bool.false_eq_true, if_false, List.mem_cons] at hc
        rcases hc with rfl | hc
        · exact Or.inr rfl
        · exact ih true c hc

theorem collapseGo_true_head :
    ∀ (l : List Char) (c : Char), (collapseGo true l).head? = some c →
      isLA c = true := by
  intro l
  induction l with
  | nil => intro c hc; simp [collapseGo] at hc
  | cons d ds ih =>
    intro c hc
    by_cases hd : isLA d = true
    · simp only [collapseGo, hd, if_pos, List.head?_cons, Option.some.injEq] at hc
      subst hc
      exact hd
    · simp only [collapseGo, hd, Bool.false_eq_true, if_false, if_true] at hc
      exact ih c hc

theorem collapseGo_chain (b : Bool) (l : List Char) :
    List.Chain' stepOK (collapseGo b l) := by
  induction l generalizing b with
  | nil => simp [collapseGo]
  | cons d ds ih =>
    by_cases hd : isLA d = true
    · simp only [collapseGo, hd, if_pos]
      rw [List.chain'_cons']
      refine ⟨fun y hy => ?_, ih false⟩
      intro ⟨h1, _⟩
      subst h1
      simp [isLA] at hd
    · cases b with
      | true =>
        simp only [collapseGo, hd, Bool.false_eq_true, if_false, if_true]
        exact ih true
      | false =>
        simp only [collapseGo, hd, Bool.false_eq_true, if_false]
        rw [List.chain'_cons']
        refine ⟨fun y hy => ?_, ih true⟩
        intro ⟨_, h2⟩
        have := collapseGo_true_head ds y hy
        subst h2
        simp [isLA] at this

theorem collapseGo_eq_self :
    ∀ (l : List Char), (∀ c ∈ l, isLA c = true ∨ c = '_') →
      List.Chain' stepOK l → l.getLast? ≠ some '_' →
      collapseGo false l = l ∧ (l.head? ≠ some '_' → collapseGo true l = l) := by
  intro l
  induction l with
  | nil => exact fun _ _ _ => ⟨rfl, fun _ => rfl⟩
  | cons d ds ih =>
    intro hset hchain hlast
    by_cases hd : isLA d = true
    · have hds : collapseGo false ds = ds := by
        rcases ds with _ | ⟨e, es⟩
        · rfl
        · exact (ih (fun c hc => hset c (by simp [hc]))
            (List.chain'_cons'.mp hchain).2
            (by rwa [List.getLast?_cons_cons] at hlast)).1
      constructor
      · simp only [collapseGo, hd, if_pos, hds]
      · intro _
        simp only [collapseGo, hd, if_pos, hds]
    · have hdu : d = '_' := by
        rcases hset d (by simp) with h | h
        · exact absurd h hd
        · exact h
      subst hdu
      rcases ds with _ | ⟨e, es⟩
      · exact absurd rfl hlast
      · have he : e ≠ '_' := by
          intro he
          exact (List.chain'_cons'.mp hchain).1 e rfl ⟨rfl, he⟩
        have hih := ih (fun c hc => hset c (by simp [hc]))
          (List.chain'_cons'.mp hchain).2
          (by rwa [List.getLast?_cons_cons] at hlast)
        have htrue : collapseGo true (e :: es) = e :: es := by
          refine hih.2 ?_
          simp only [List.head?_cons, ne_eq, Option.some.injEq]
          exact he
        constructor
        · rw [collapseGo_cons, if_neg (by decide : ¬(isLA '_' = true)),
            if_neg (by decide : ¬(false = true)), htrue]
        · intro hh
          exact absurd rfl hh

theorem chain'_stepOK_reverse {l : List Char} (h : List.Chain' stepOK l) :
    List.Chain' stepOK l.reverse := by
  rw [List.chain'_reverse]
  exact h.imp (fun a b hab => fun ⟨h1, h2⟩ => hab ⟨h2, h1⟩)

theorem chain_stripBoth {p : Char → Bool} {l : List Char}
    (h : List.Chain' stepOK l) : List.Chain' stepOK (stripBoth p l) := by
  unfold stripBoth
  exact chain'_stepOK_reverse
    ((chain'_stepOK_reverse (h.suffix (List.dropWhile_suffix p))).suffix
      (List.dropWhile_suffix p))

/-! ## normalize_craving: image and idempotence -/

theorem normalize_charset (s : String) :
    ∀ c ∈ (normalize_craving s).data, isLA c = true ∨ c = '_' := by
  intro c hc
  unfold normalize_craving at hc
  by_cases hs : s.data = []
  · rw [if_pos hs] at hc
    simp at hc
  · rw [if_neg hs] at hc
    have h2 := mem_of_stripBoth hc
    exact collapseGo_mem false _ c h2

theorem normalize_of_data (t : String) :
    normalize_craving t =
      if t.data = [] then ""
      else ⟨stripU (collapse (pyStripChars (t.data.map Char.toLower)))⟩ := rfl

theorem normalize_chain (s : String) :
    List.Chain' stepOK (normalize_craving s).data := by
  rw [normalize_of_data]
  by_cases hs : s.data = []
  · rw [if_pos hs]
    exact List.chain'_nil
  · rw [if_neg hs]
    exact chain_stripBoth (collapseGo_chain false _)

theorem normalize_headU (s : String) :
    ∀ a, (normalize_craving s).data.head? = some a → a ≠ '_' := by
  rw [normalize_of_data]
  by_cases hs : s.data = []
  · rw [if_pos hs]
    intro a ha
    simp at ha
  · rw [if_neg hs]
    intro a ha
    have := stripBoth_head? ha
    simpa using this

theorem normalize_lastU (s : String) :
    ∀ a, (normalize_craving s).data.getLast? = some a → a ≠ '_' := by
  rw [normalize_of_data]
  by_cases hs : s.data = []
  · rw [if_pos hs]
    intro a ha
    simp at ha
  · rw [if_neg hs]
    intro a ha
    have := stripBoth_getLast? ha
    simpa using this

/-- The normalization pipeline fixes any list that looks like its own
output: lower-alphanumeric and underscore characters only, no adjacent
underscores, and no underscore at either end. -/
theorem pipeline_fixed (m : List Char)
    (charm : ∀ c ∈ m, isLA c = true ∨ c = '_')
    (chainm : List.Chain' stepOK m)
    (headm : ∀ a, m.head? = some a → a ≠ '_')
    (lastm : ∀ a, m.getLast? = some a → a ≠ '_') :
    stripU (collapse (pyStripChars (m.map Char.toLower))) = m := by
  have hlower : m.map Char.toLower = m :=
    map_eq_self_of (fun c hc => toLower_eq_self (charm c hc))
  have hstripws : pyStripChars m = m := by
    unfold pyStripChars
    refine stripBoth_eq_self ?_ ?_
    · intro a ha
      exact not_ws_of_charset (charm a (List.mem_of_mem_head? ha))
    · intro a ha
      exact not_ws_of_charset (charm a (List.mem_of_mem_getLast? ha))
  have hcoll : collapse m = m := by
    unfold collapse
    refine (collapseGo_eq_self m charm chainm ?_).1
    intro hl
    exact lastm '_' hl rfl
  have hstripu : stripU m = m := by
    unfold stripU
    refine stripBoth_eq_self ?_ ?_
    · intro a ha
      simpa using headm a ha
    · intro a ha
      simpa using lastm a ha
  rw [hlower, hstripws, hcoll, hstripu]

theorem normalize_craving_idem (s : String) :
    normalize_craving (normalize_craving s) = normalize_craving s := by
  rw [normalize_of_data (normalize_craving s)]
  by_cases hme : (normalize_craving s).data = []
  · rw [if_pos hme]
    apply String.ext
    rw [hme]
  · rw [if_neg hme]
    apply String.ext
    show stripU (collapse (pyStripChars ((normalize_craving s).data.map Char.toLower))) =
      (normalize_craving s).data
    exact pipeline_fixed _ (normalize_charset s) (normalize_chain s)
      (normalize_headU s) (normalize_lastU s)

/-! ## Ranking lemmas -/

theorem contains_false_not_mem {l : List String} {a : String}
    (h : l.contains a = false) : a ∉ l := by
  intro hmem
  have h2 : l.elem a = true := List.elem_iff.mpr hmem
  rw [show l.contains a = l.elem a from rfl, h2] at h
  exact Bool.noConfusion h

theorem rankRestaurants_length (rs : List Restaurant) (exclude : List String) :
    (rankRestaurants rs exclude).length ≤ 3 := by
  unfold rankRestaurants
  split
  · exact List.length_take_le 3 _
  · simp

theorem rankRestaurants_not_excluded {rs : List Restaurant}
    {exclude : List String} {r : Restaurant}
    (h : r ∈ rankRestaurants rs exclude) : r.name ∉ exclude := by
  simp only [rankRestaurants] at h
  split at h
  · have h2 : r ∈ List.insertionSort rPrec
        (rs.filter (fun r => !(exclude.contains r.name))) :=
      (List.take_sublist 3 _).mem h
    rw [List.mem_insertionSort] at h2
    have h3 := (List.mem_filter.mp h2).2
    rw [Bool.not_eq_true'] at h3
    exact contains_false_not_mem h3
  · simp at h

/-! ## Claim theorems -/

/-- C1, counterexample.  When the collection is missing and the fetch
fails, `search_restaurants` returns the error sentinel unfiltered, so for
`exclude_names = ["🍔 Uh oh!"]` the result contains a restaurant whose
name is in `exclude_names`, contradicting the claim that the returned
list never contains a name present in `exclude_names`. -/
theorem C1_counterexample :
    search_restaurants "ramen" "98105" "" ["🍔 Uh oh!"] envMiss =
      [sentinelRestaurant "98105"] ∧
    (sentinelRestaurant "98105").name ∈ ["🍔 Uh oh!"] := by
  exact ⟨rfl, by decide⟩

/-- C1 (amended): every call to `search_restaurants` returns at most 3
entries, and the only element it can return whose name is present in
`exclude_names` is the fetch-failure sentinel (which is returned without
filtering). -/
theorem C1_amended (craving zip_code neigh : String) (exclude : List String)
    (env : SearchEnv) :
    (search_restaurants craving zip_code neigh exclude env).length ≤ 3 ∧
    ∀ r ∈ search_restaurants craving zip_code neigh exclude env,
      r.name ∈ exclude → r = sentinelRestaurant zip_code := by
  unfold search_restaurants
  cases h1 : env.store1 (collectionNameFor zip_code (cleanCraving craving)) with
  | some rs =>
    refine ⟨rankRestaurants_length rs exclude, ?_⟩
    intro r hr hmem
    exact absurd hmem (rankRestaurants_not_excluded hr)
  | none =>
    by_cases h2 : env.fetchOk = true
    · rw [if_pos h2]
      cases h3 : env.store2 (collectionNameFor zip_code (cleanCraving craving)) with
      | some rs =>
        refine ⟨rankRestaurants_length rs exclude, ?_⟩
        intro r hr hmem
        exact absurd hmem (rankRestaurants_not_excluded hr)
      | none =>
        refine ⟨by simp, ?_⟩
        intro r hr
        simp at hr
    · rw [if_neg h2]
      refine ⟨by simp, ?_⟩
      intro r hr _
      simpa using hr

/-- C1, witness for the amended theorem at concrete inputs. -/
theorem C1_witness :
    (search_restaurants "ramen" "98105" "" ["🍔 Uh oh!"] envMiss).length ≤ 3 ∧
    sentinelRestaurant "98105" = sentinelRestaurant "98105" :=
  ⟨(C1_amended "ramen" "98105" "" ["🍔 Uh oh!"] envMiss).1,
   (C1_amended "ramen" "98105" "" ["🍔 Uh oh!"] envMiss).2
     (sentinelRestaurant "98105") (by decide) (by decide)⟩

/-- C2, counterexample.  A rating string that is neither `"N/A"`, `None`
nor `""` but also not float-parseable (here `"five"`) is not treated as
0: `float` raises, the `except` handler returns `[]`, and the restaurant
is dropped entirely, contradicting the claim that non-numeric ratings are
treated as 0 in the sort. -/
theorem C2_counterexample :
    rstBad.rating = some "five" ∧
    search_restaurants "ramen" "98105" "" [] envBad = [] ∧
    search_restaurants "ramen" "98105" "" [] envBad ≠ [rstBad] := by
  refine ⟨rfl, rfl, by decide⟩

/-- C2 (amended): when every retained rating is one of the sentinels
`"N/A"`/`None`/`""` (treated as 0) or float-parseable, the results
surviving exclusion are stable-sorted by numeric rating descending and
truncated to the first 3; a rating outside that set makes the whole
search return `[]` via the exception handler.  The claim's concrete
instance holds: for ratings `[4.2, "N/A", 4.8]` the order is 4.8 first,
4.2 second, "N/A" (as 0) last. -/
theorem C2_amended :
    (∀ (rs : List Restaurant) (exclude : List String)
        (craving zip_code neigh : String) (env : SearchEnv),
      env.store1 (collectionNameFor zip_code (cleanCraving craving)) = some rs →
      (∀ r ∈ rs.filter (fun r => !(exclude.contains r.name)),
        (ratingKey r).isSome = true) →
      ∃ full : List Restaurant,
        search_restaurants craving zip_code neigh exclude env = full.take 3 ∧
        full.Perm (rs.filter (fun r => !(exclude.contains r.name))) ∧
        full.Sorted rPrec ∧
        (∀ a b : Restaurant,
          rPrec a b →
          [a, b].Sublist (rs.filter (fun r => !(exclude.contains r.name))) →
          [a, b].Sublist full)) ∧
    search_restaurants "ramen" "98105" "" [] envABC = [rst48, rst42, rstNA] := by
  constructor
  · intro rs exclude craving zip_code neigh env hstore hkeys
    have hs : search_restaurants craving zip_code neigh exclude env =
        rankRestaurants rs exclude := by
      unfold search_restaurants
      rw [hstore]
    have hall : (rs.filter (fun r => !(exclude.contains r.name))).all
        (fun r => (ratingKey r).isSome) = true :=
      List.all_eq_true.mpr hkeys
    have hrank : rankRestaurants rs exclude =
        (List.insertionSort rPrec
          (rs.filter (fun r => !(exclude.contains r.name)))).take 3 := by
      unfold rankRestaurants
      rw [if_pos hall]
    refine ⟨List.insertionSort rPrec
      (rs.filter (fun r => !(exclude.contains r.name))), ?_, ?_, ?_, ?_⟩
    · rw [hs, hrank]
    · exact List.perm_insertionSort rPrec _
    · exact List.sorted_insertionSort rPrec _
    · intro a b hab hsub
      exact List.pair_sublist_insertionSort hab hsub
  · decide

/-- C2, witness for the amended theorem at the claim's concrete
ratings. -/
theorem C2_witness :
    ∃ full : List Restaurant,
      search_restaurants "ramen" "98105" "" [] envABC = full.take 3 ∧
      full.Perm ([rst42, rstNA, rst48].filter
        (fun r => !(([] : List String).contains r.name))) ∧
      full.Sorted rPrec ∧
      (∀ a b : Restaurant,
        rPrec a b →
        [a, b].Sublist ([rst42, rstNA, rst48].filter
          (fun r => !(([] : List String).contains r.name))) →
        [a, b].Sublist full) :=
  C2_amended.1 [rst42, rstNA, rst48] [] "ramen" "98105" "" envABC rfl (by decide)

/-- C3, counterexample.  "really" is not in the filler list and
`\breal\b` does not match inside "really", so the cleaning pipeline maps
"really spicy ramen noodles" to "really  ramen noodles" (double space
from the removal of "spicy"), which the literal synonym table does not
map to "ramen" — contradicting the claimed result "ramen". -/
theorem C3_counterexample :
    cleanCraving "really spicy ramen noodles" = "really  ramen noodles" ∧
    cleanCraving "really spicy ramen noodles" ≠ "ramen" := by
  exact ⟨rfl, by decide⟩

/-- C3 (amended): the cleaning pipeline maps "spicy ramen noodles" to
"ramen" (the filler "spicy" is removed and the synonym table collapses
"ramen noodles"), while "really spicy ramen noodles" stays
"really  ramen noodles"; and ZIP "98105" with craving "Mexican Tacos"
yields the collection key `restaurants_98105_mexican`. -/
theorem C3_amended :
    cleanCraving "spicy ramen noodles" = "ramen" ∧
    cleanCraving "really spicy ramen noodles" = "really  ramen noodles" ∧
    collectionNameFor "98105" (cleanCraving "Mexican Tacos") =
      "restaurants_98105_mexican" := by
  exact ⟨rfl, rfl, rfl⟩

/-- C6: `normalize_craving` maps "Indian Food!" to "indian_food", maps
the empty (falsy) input to the empty string, and is idempotent on every
string. -/
theorem C6_normalize_contract :
    normalize_craving "Indian Food!" = "indian_food" ∧
    normalize_craving "" = "" ∧
    ∀ x : String,
      normalize_craving (normalize_craving x) = normalize_craving x := by
  refine ⟨rfl, rfl, normalize_craving_idem⟩

/-! ## generate_response fallback lemmas -/

theorem fallbackReply_endsWith (rs : List Restaurant) (st : Session) :
    strEndsWith (fallbackReply rs st) fallbackSuffix = true := by
  unfold strEndsWith fallbackReply
  rw [List.isSuffixOf_iff_suffix]
  simp only [String.data_append]
  exact List.suffix_append _ _

/-- C4, counterexample.  On an LLM failure the fallback reply ends with
the fallback's own promotional sentence, not with the fixed promotional
suffix that the successful path appends — so the fallback does not append
"the fixed promotional suffix" of the claim. -/
theorem C4_counterexample :
    (generate_response "hello" [rst42] sessCrav0 (Except.error ())).1 =
      Except.ok (fallbackReply [rst42] sessCrav0) ∧
    strEndsWith (fallbackReply [rst42] sessCrav0) successSuffix = false ∧
    strEndsWith (fallbackReply [rst42] sessCrav0) fallbackSuffix = true := by
  refine ⟨rfl, by decide, by decide⟩

/-- C4 (amended): whenever the LLM call site is reached (neutral-enough
tone, nonempty non-sentinel restaurant list, ratings present) and the
call raises, `generate_response` returns — without propagating the
exception — the deterministic templated enumeration of the same
restaurant list, which ends with the fallback's own fixed promotional
suffix (a different sentence from the successful path's suffix). -/
theorem C4_amended (u : String) (r0 : Restaurant) (rest : List Restaurant)
    (st : Session)
    (h1 : toneOf (pyStrip (strLower u)) ≠ Tone.frustrated)
    (h2 : ¬(toneOf (pyStrip (strLower u)) = Tone.grateful ∧
        (pyIn "thank" (pyStrip (strLower u)) = true ∨
         pyIn "bye" (pyStrip (strLower u)) = true)))
    (h3 : r0.name ≠ "🍔 Uh oh!")
    (h4 : (r0 :: rest).all (fun r => r.rating.isSome) = true) :
    generate_response u (r0 :: rest) st (Except.error ()) =
      (Except.ok (fallbackReply (r0 :: rest) st), true) ∧
    strEndsWith (fallbackReply (r0 :: rest) st) fallbackSuffix = true := by
  have hmain : genMain (r0 :: rest) st (Except.error ()) =
      (Except.ok (fallbackReply (r0 :: rest) st), true) := by
    simp only [genMain]
    rw [if_neg h3, if_pos h4]
  refine ⟨?_, fallbackReply_endsWith _ _⟩
  simp only [generate_response]
  cases htone : toneOf (pyStrip (strLower u)) with
  | frustrated => exact absurd htone h1
  | grateful =>
    have hnb : (pyIn "thank" (pyStrip (strLower u)) ||
        pyIn "bye" (pyStrip (strLower u))) = false := by
      rw [Bool.or_eq_false_iff]
      constructor
      · rw [Bool.eq_false_iff]
        intro ht
        exact h2 ⟨htone, Or.inl ht⟩
      · rw [Bool.eq_false_iff]
        intro hb
        exact h2 ⟨htone, Or.inr hb⟩
    rw [if_neg (by rw [hnb]; exact Bool.false_ne_true)]
    exact hmain
  | neutral => exact hmain

/-- C4, witness for the amended theorem at concrete inputs. -/
theorem C4_witness :
    generate_response "hello" [rst42] sessCrav0 (Except.error ()) =
      (Except.ok (fallbackReply [rst42] sessCrav0), true) ∧
    strEndsWith (fallbackReply [rst42] sessCrav0) fallbackSuffix = true :=
  C4_amended "hello" rst42 [] sessCrav0 (by decide) (by decide) (by decide)
    (by decide)

/-- C7, counterexample.  For input "Bob i'm" there is no leading
self-introduction phrase, the last whitespace token is "i'm" whose
capitalization is not purely alphabetic, so the claimed mechanism
(strip LEADING phrases, then gate the last token) stores the placeholder
"Friend"; but the code replaces phrase occurrences ANYWHERE, deletes the
trailing "i'm", and stores "Bob". -/
theorem C7_counterexample :
    introPhrases.all
      (fun p => !(p.data.isPrefixOf (strLower "Bob i\x27m").data)) = true ∧
    lastWord (strLower "Bob i\x27m").data = ("i\x27m").data ∧
    pyIsAlpha ⟨pyCapitalize (("i\x27m").data)⟩ = false ∧
    (dashbot_reply "Bob i\x27m" sessName0 envEmpty
      (Except.error ())).session.name = "Bob" ∧
    ("Bob" : String) ≠ "Friend" := by
  refine ⟨by decide, by decide, by decide, rfl, by decide⟩

/-- C7 (amended): in stage `name` the machine lower-cases the input,
removes EVERY occurrence of each self-introduction phrase (in order
"my name is", "i am", "i'm", "call me", anywhere in the string), then
stores the capitalized last whitespace token if it is purely alphabetic
and the placeholder "Friend" otherwise — so the stored name is always
nonempty alphabetic — and the stage becomes `zip` in every case.  In
particular "My name is Pat99" stores "Friend", not "Pat99". -/
theorem C7_amended (input : String) (st : Session) (senv : SearchEnv)
    (llm : Except Unit String) (h : st.stage = Stage.name) :
    (dashbot_reply input st senv llm).session.stage = Stage.zip ∧
    pyIsAlpha (dashbot_reply input st senv llm).session.name = true ∧
    ((dashbot_reply input st senv llm).session.name = "Friend" ∨
      (dashbot_reply input st senv llm).session.name =
        ⟨pyCapitalize (lastWord (stripIntro (strLower input).data))⟩) ∧
    (dashbot_reply input st senv llm).searchCalled = false ∧
    (dashbot_reply input st senv llm).llmCalled = false := by
  have hd : dashbot_reply input st senv llm = nameStage input st := by
    unfold dashbot_reply
    rw [h]
  rw [hd]
  simp only [nameStage]
  by_cases hstrip : pyStripChars (stripIntro (strLower input).data) = []
  · rw [if_pos hstrip]
    by_cases ha : pyIsAlpha "Friend" = true
    · rw [if_pos ha]
      exact ⟨trivial, ha, Or.inl rfl, trivial, trivial⟩
    · exact absurd (by decide) ha
  · rw [if_neg hstrip]
    by_cases ha : pyIsAlpha ⟨pyCapitalize (lastWord (stripIntro (strLower input).data))⟩ = true
    · rw [if_pos ha]
      exact ⟨trivial, ha, Or.inr rfl, trivial, trivial⟩
    · rw [if_neg ha]
      exact ⟨trivial, by decide, Or.inl rfl, trivial, trivial⟩

/-- C7, witness: the amended theorem at the claim's "My name is Pat99"
input, which stores the placeholder and moves to stage `zip`. -/
theorem C7_witness :
    sessName0.stage = Stage.name ∧
    (dashbot_reply "My name is Pat99" sessName0 envEmpty
      (Except.error ())).session.stage = Stage.zip ∧
    (dashbot_reply "My name is Pat99" sessName0 envEmpty
      (Except.error ())).session.name = "Friend" :=
  ⟨rfl,
   (C7_amended "My name is Pat99" sessName0 envEmpty (Except.error ()) rfl).1,
   by decide⟩

/-- C8, counterexample.  The help-keyword check runs before the 5-digit
search, so the input "12345 help" — which does contain a 5-digit number —
does not store the ZIP and does not advance: it returns the help text and
stays in stage `zip`, contradicting the claim that any input containing a
5-digit number stores it and advances. -/
theorem C8_counterexample :
    findZip "12345 help" = some "12345" ∧
    (dashbot_reply "12345 help" sessZip0 envEmpty
      (Except.error ())).session = sessZip0 ∧
    (dashbot_reply "12345 help" sessZip0 envEmpty
      (Except.error ())).result = Except.ok zipHelpText := by
  refine ⟨rfl, rfl, rfl⟩

theorem zipStage_help (input : String) (st : Session)
    (hk : anyIn helpWords (strLower input) = true) :
    zipStage input st =
      { result := Except.ok zipHelpText, session := st,
        searchCalled := false, llmCalled := false } := by
  unfold zipStage
  rw [if_pos hk]

theorem zipStage_zip (input : String) (st : Session) (z : String)
    (hk : anyIn helpWords (strLower input) = false)
    (hz : findZip input = some z) :
    zipStage input st =
      { result := Except.ok (zipOkText z)
        session := { st with zip_code := z, stage := Stage.neighborhood }
        searchCalled := false, llmCalled := false } := by
  unfold zipStage
  rw [if_neg (by rw [hk]; exact Bool.false_ne_true), hz]

theorem zipStage_bad (input : String) (st : Session)
    (hk : anyIn helpWords (strLower input) = false)
    (hz : findZip input = none) :
    zipStage input st =
      { result := Except.ok zipBadText, session := st,
        searchCalled := false, llmCalled := false } := by
  unfold zipStage
  rw [if_neg (by rw [hk]; exact Bool.false_ne_true), hz]

/-- C8 (amended): stage `zip` never runs the search or the LLM and never
throws; the help-keyword check has priority: with a help keyword the turn
returns help text and leaves the session unchanged (even when a 5-digit
number is present); without one, a contained 5-digit number is stored and
the stage advances to `neighborhood`; otherwise the session is unchanged
and the re-prompt is returned. -/
theorem C8_amended (input : String) (st : Session) (senv : SearchEnv)
    (llm : Except Unit String) (h : st.stage = Stage.zip) :
    (dashbot_reply input st senv llm).searchCalled = false ∧
    (dashbot_reply input st senv llm).llmCalled = false ∧
    (anyIn helpWords (strLower input) = true →
      (dashbot_reply input st senv llm).session = st ∧
      (dashbot_reply input st senv llm).result = Except.ok zipHelpText) ∧
    (anyIn helpWords (strLower input) = false →
      ∀ z, findZip input = some z →
        (dashbot_reply input st senv llm).session =
          { st with zip_code := z, stage := Stage.neighborhood } ∧
        (dashbot_reply input st senv llm).result = Except.ok (zipOkText z)) ∧
    (anyIn helpWords (strLower input) = false → findZip input = none →
      (dashbot_reply input st senv llm).session = st ∧
      (dashbot_reply input st senv llm).result = Except.ok zipBadText) := by
  have hd : dashbot_reply input st senv llm = zipStage input st := by
    unfold dashbot_reply
    rw [h]
  rw [hd]
  by_cases hk : anyIn helpWords (strLower input) = true
  · rw [zipStage_help input st hk]
    refine ⟨rfl, rfl, fun _ => ⟨rfl, rfl⟩, fun hk' _ _ => ?_, fun hk' _ => ?_⟩
    · rw [hk] at hk'
      exact Bool.noConfusion hk'
    · rw [hk] at hk'
      exact Bool.noConfusion hk'
  · have hk' : anyIn helpWords (strLower input) = false :=
      Bool.eq_false_iff.mpr hk
    cases hz : findZip input with
    | some z =>
      rw [zipStage_zip input st z hk' hz]
      refine ⟨rfl, rfl, fun hkk => absurd hkk hk, fun _ z' hz' => ?_, fun _ hn => ?_⟩
      · injection hz' with he
        subst he
        exact ⟨rfl, rfl⟩
      · exact Option.noConfusion hn
    | none =>
      rw [zipStage_bad input st hk' hz]
      refine ⟨rfl, rfl, fun hkk => absurd hkk hk, fun _ z' hz' => ?_,
        fun _ _ => ⟨rfl, rfl⟩⟩
      exact Option.noConfusion hz'

/-- C8, witness: the amended theorem at the claim's concrete inputs
"12345 downtown" (advances) and "I don't know" (help text). -/
theorem C8_witness :
    ((dashbot_reply "12345 downtown" sessZip0 envEmpty
        (Except.error ())).session =
      { sessZip0 with zip_code := "12345", stage := Stage.neighborhood } ∧
     (dashbot_reply "12345 downtown" sessZip0 envEmpty
        (Except.error ())).result = Except.ok (zipOkText "12345")) ∧
    ((dashbot_reply "I don\x27t know" sessZip0 envEmpty
        (Except.error ())).session = sessZip0 ∧
     (dashbot_reply "I don\x27t know" sessZip0 envEmpty
        (Except.error ())).result = Except.ok zipHelpText) :=
  ⟨(C8_amended "12345 downtown" sessZip0 envEmpty (Except.error ())
      rfl).2.2.2.1 (by decide) "12345" (by decide),
   (C8_amended "I don\x27t know" sessZip0 envEmpty (Except.error ())
      rfl).2.2.1 (by decide)⟩

/-! ## Craving-stage path lemmas -/

/-- Under the listed keyword conditions the craving stage falls through
to the new-craving branch (the selection branch also falls through when
there are no prior results). -/
theorem cravingStage_new (input : String) (st : Session) (senv : SearchEnv)
    (llm : Except Unit String)
    (hmove : anyIn movedPhrases (pyStrip (strLower input)) = false)
    (hzip : findZip input = none ∨ findZip input = some st.zip_code)
    (hmore : anyIn moreWords (pyStrip (strLower input)) = false)
    (hsel : anyIn selWords (pyStrip (strLower input)) = false ∨
      st.last_restaurants = [])
    (hord : anyIn orderWords (pyStrip (strLower input)) = false) :
    cravingStage input st senv llm = cravingNew input st senv llm := by
  have hrest : cravingMore input (pyStrip (strLower input)) st senv llm =
      cravingNew input st senv llm := by
    unfold cravingMore
    rw [if_neg (by rw [hmore]; exact Bool.noConfusion)]
    unfold cravingSel
    have hordnew : cravingOrderNew input (pyStrip (strLower input)) st senv llm =
        cravingNew input st senv llm := by
      unfold cravingOrderNew
      rw [if_neg (by rw [hord]; exact Bool.noConfusion)]
    rcases hsel with hs | hl
    · rw [if_neg (by rw [hs]; exact Bool.noConfusion)]
      exact hordnew
    · by_cases hs : anyIn selWords (pyStrip (strLower input)) = true
      · rw [if_pos hs, hl]
        exact hordnew
      · rw [if_neg hs]
        exact hordnew
  unfold cravingStage
  rw [if_neg (by rw [hmove]; exact Bool.noConfusion)]
  rcases hzip with hz | hz
  · rw [hz]
    exact hrest
  · rw [hz]
    dsimp only
    rw [if_neg (by simp)]
    exact hrest

/-- The "more" branch without usable prior results returns the
clarifying question and leaves everything untouched. -/
theorem cravingStage_more_clarify (input : String) (st : Session)
    (senv : SearchEnv) (llm : Except Unit String)
    (hmove : anyIn movedPhrases (pyStrip (strLower input)) = false)
    (hzip : findZip input = none ∨ findZip input = some st.zip_code)
    (hmore : anyIn moreWords (pyStrip (strLower input)) = true)
    (hempty : cravingTruthy st = false ∨ st.last_restaurants = []) :
    cravingStage input st senv llm =
      { result := Except.ok moreClarifyText, session := st,
        searchCalled := false, llmCalled := false } := by
  have hco : (cravingTruthy st && !st.last_restaurants.isEmpty) = false := by
    rcases hempty with he | he
    · rw [he, Bool.false_and]
    · rw [he]
      simp
  have hrest : cravingMore input (pyStrip (strLower input)) st senv llm =
      { result := Except.ok moreClarifyText, session := st,
        searchCalled := false, llmCalled := false } := by
    unfold cravingMore
    rw [if_pos hmore, if_neg (by rw [hco]; exact Bool.noConfusion)]
  unfold cravingStage
  rw [if_neg (by rw [hmove]; exact Bool.noConfusion)]
  rcases hzip with hz | hz
  · rw [hz]
    exact hrest
  · rw [hz]
    dsimp only
    rw [if_neg (by simp)]
    exact hrest

/-- Tone short-circuit of `generate_response`: a frustrated tone returns
the canned apology before any restaurant or LLM logic. -/
theorem generate_response_frustrated (u : String) (rs : List Restaurant)
    (st : Session) (llm : Except Unit String)
    (h : toneOf (pyStrip (strLower u)) = Tone.frustrated) :
    generate_response u rs st llm =
      (Except.ok (frustratedReply st.name), false) := by
  simp only [generate_response]
  rw [h]

/-- Tone short-circuit of `generate_response`: a grateful tone together
with a "thank"/"bye" substring returns the canned thanks. -/
theorem generate_response_grateful (u : String) (rs : List Restaurant)
    (st : Session) (llm : Except Unit String)
    (h : toneOf (pyStrip (strLower u)) = Tone.grateful)
    (hb : pyIn "thank" (pyStrip (strLower u)) = true ∨
      pyIn "bye" (pyStrip (strLower u)) = true) :
    generate_response u rs st llm =
      (Except.ok (gratefulReply st.name), false) := by
  simp only [generate_response]
  rw [h]
  rw [if_pos (by rcases hb with h1 | h1 <;> simp [h1])]

/-- C5, counterexample.  In the craving stage the input "i am so
frustrated" carries no routing keyword, so it is treated as a new
craving: `search_restaurants` IS executed (searchCalled = true) before
`generate_response` detects the frustrated tone and returns the canned
text, contradicting the claim that no restaurant search is executed on a
frustrated-tone turn. -/
theorem C5_counterexample :
    (dashbot_reply "i am so frustrated" sessCrav0 envEmpty
      (Except.error ())).searchCalled = true ∧
    (dashbot_reply "i am so frustrated" sessCrav0 envEmpty
      (Except.error ())).llmCalled = false ∧
    (dashbot_reply "i am so frustrated" sessCrav0 envEmpty
      (Except.error ())).result = Except.ok (frustratedReply "Sam") := by
  refine ⟨rfl, rfl, rfl⟩

/-- C5 (amended): in the craving stage, when the input reaches the
new-craving branch and matches the frustrated keywords — or the grateful
keywords together with a "thank"/"bye" substring — the turn returns the
canned empathetic text and the LLM call is skipped, but the restaurant
search still executes first. -/
theorem C5_amended (input : String) (st : Session) (senv : SearchEnv)
    (llm : Except Unit String)
    (hstage : st.stage = Stage.craving)
    (hmove : anyIn movedPhrases (pyStrip (strLower input)) = false)
    (hzip : findZip input = none ∨ findZip input = some st.zip_code)
    (hmore : anyIn moreWords (pyStrip (strLower input)) = false)
    (hsel : anyIn selWords (pyStrip (strLower input)) = false ∨
      st.last_restaurants = [])
    (hord : anyIn orderWords (pyStrip (strLower input)) = false)
    (htone : toneOf (pyStrip (strLower input)) = Tone.frustrated ∨
      (toneOf (pyStrip (strLower input)) = Tone.grateful ∧
        (pyIn "thank" (pyStrip (strLower input)) = true ∨
         pyIn "bye" (pyStrip (strLower input)) = true))) :
    (dashbot_reply input st senv llm).searchCalled = true ∧
    (dashbot_reply input st senv llm).llmCalled = false ∧
    (toneOf (pyStrip (strLower input)) = Tone.frustrated →
      (dashbot_reply input st senv llm).result =
        Except.ok (frustratedReply st.name)) ∧
    (toneOf (pyStrip (strLower input)) = Tone.grateful →
      (dashbot_reply input st senv llm).result =
        Except.ok (gratefulReply st.name)) := by
  have hd : dashbot_reply input st senv llm = cravingNew input st senv llm := by
    unfold dashbot_reply
    rw [hstage]
    exact cravingStage_new input st senv llm hmove hzip hmore hsel hord
  rw [hd]
  simp only [cravingNew]
  rcases htone with hf | ⟨hg, hb⟩
  · rw [generate_response_frustrated input _ _ llm hf]
    refine ⟨by trivial, by trivial, fun _ => by trivial, fun hgr => ?_⟩
    rw [hf] at hgr
    exact Tone.noConfusion hgr
  · rw [generate_response_grateful input _ _ llm hg hb]
    refine ⟨by trivial, by trivial, fun hfr => ?_, fun _ => by trivial⟩
    rw [hg] at hfr
    exact Tone.noConfusion hfr

/-- C5, witness for the amended theorem at the frustrated-tone input. -/
theorem C5_witness :
    (dashbot_reply "i am so frustrated" sessCrav0 envEmpty
      (Except.error ())).searchCalled = true ∧
    (dashbot_reply "i am so frustrated" sessCrav0 envEmpty
      (Except.error ())).llmCalled = false :=
  ⟨(C5_amended "i am so frustrated" sessCrav0 envEmpty (Except.error ())
      rfl (by decide) (Or.inl (by decide)) (by decide) (Or.inl (by decide))
      (by decide) (Or.inl (by decide))).1,
   (C5_amended "i am so frustrated" sessCrav0 envEmpty (Except.error ())
      rfl (by decide) (Or.inl (by decide)) (by decide) (Or.inl (by decide))
      (by decide) (Or.inl (by decide))).2.1⟩

/-- C9, counterexample.  "second one" is a selection-intent input; with
no prior result list the selection branch falls through and the input is
treated as a NEW craving: the search runs and the reply is the
no-results message, not a clarifying question — contradicting the claim
that selection intents without priors degrade to a clarifying
question rather than running another path. -/
theorem C9_counterexample :
    anyIn selWords (pyStrip (strLower "second one")) = true ∧
    sessCrav0.last_restaurants = [] ∧
    (dashbot_reply "second one" sessCrav0 envEmpty
      (Except.error ())).searchCalled = true ∧
    (dashbot_reply "second one" sessCrav0 envEmpty
      (Except.error ())).result ≠ Except.ok moreClarifyText := by
  refine ⟨by decide, rfl, rfl, by decide⟩

/-- C9 (amended): with no usable prior results, a "more"/"another" intent
returns the clarifying question with no search, no LLM call and an
unchanged session (no index error); a selection intent without priors
does not raise either, but falls through to the new-craving branch and
runs the search. -/
theorem C9_amended :
    (∀ (input : String) (st : Session) (senv : SearchEnv)
        (llm : Except Unit String),
      st.stage = Stage.craving →
      anyIn movedPhrases (pyStrip (strLower input)) = false →
      (findZip input = none ∨ findZip input = some st.zip_code) →
      anyIn moreWords (pyStrip (strLower input)) = true →
      (cravingTruthy st = false ∨ st.last_restaurants = []) →
      (dashbot_reply input st senv llm).result = Except.ok moreClarifyText ∧
      (dashbot_reply input st senv llm).session = st ∧
      (dashbot_reply input st senv llm).searchCalled = false ∧
      (dashbot_reply input st senv llm).llmCalled = false) ∧
    (∀ (input : String) (st : Session) (senv : SearchEnv)
        (llm : Except Unit String),
      st.stage = Stage.craving →
      anyIn movedPhrases (pyStrip (strLower input)) = false →
      (findZip input = none ∨ findZip input = some st.zip_code) →
      anyIn moreWords (pyStrip (strLower input)) = false →
      st.last_restaurants = [] →
      anyIn orderWords (pyStrip (strLower input)) = false →
      (dashbot_reply input st senv llm).searchCalled = true ∧
      (dashbot_reply input st senv llm).session.last_craving = some input) := by
  constructor
  · intro input st senv llm hstage hmove hzip hmore hempty
    have hd : dashbot_reply input st senv llm =
        { result := Except.ok moreClarifyText, session := st,
          searchCalled := false, llmCalled := false } := by
      unfold dashbot_reply
      rw [hstage]
      exact cravingStage_more_clarify input st senv llm hmove hzip hmore hempty
    rw [hd]
    exact ⟨rfl, rfl, rfl, rfl⟩
  · intro input st senv llm hstage hmove hzip hmore hlast hord
    have hd : dashbot_reply input st senv llm = cravingNew input st senv llm := by
      unfold dashbot_reply
      rw [hstage]
      exact cravingStage_new input st senv llm hmove hzip hmore (Or.inr hlast) hord
    rw [hd]
    simp only [cravingNew]
    exact ⟨by trivial, by trivial⟩

/-- C9, witness: the amended theorem at "show me more" (clarifying
question) and "second one" (fall-through to search) with no priors. -/
theorem C9_witness :
    ((dashbot_reply "show me more" sessCrav0 envEmpty
        (Except.error ())).result = Except.ok moreClarifyText ∧
      (dashbot_reply "show me more" sessCrav0 envEmpty
        (Except.error ())).session = sessCrav0 ∧
      (dashbot_reply "show me more" sessCrav0 envEmpty
        (Except.error ())).searchCalled = false ∧
      (dashbot_reply "show me more" sessCrav0 envEmpty
        (Except.error ())).llmCalled = false) ∧
    ((dashbot_reply "second one" sessCrav0 envEmpty
        (Except.error ())).searchCalled = true ∧
      (dashbot_reply "second one" sessCrav0 envEmpty
        (Except.error ())).session.last_craving = some "second one") :=
  ⟨C9_amended.1 "show me more" sessCrav0 envEmpty (Except.error ()) rfl
      (by decide) (Or.inl (by decide)) (by decide) (Or.inl (by decide)),
   C9_amended.2 "second one" sessCrav0 envEmpty (Except.error ()) rfl
      (by decide) (Or.inl (by decide)) (by decide) rfl (by decide)⟩

/-! ## Fetch/build filename round-trip (C10) -/

theorem dropLit_append (p r : List Char) : dropLit p (p ++ r) = some r := by
  unfold dropLit
  rw [if_pos (List.isPrefixOf_iff_prefix.mpr (List.prefix_append p r))]
  rw [List.drop_left]

theorem takeWhile_append_of_all {p : Char → Bool} :
    ∀ (l1 : List Char) (x : Char) (l2 : List Char),
      (∀ c ∈ l1, p c = true) → p x = false →
      (l1 ++ x :: l2).takeWhile p = l1 ∧ (l1 ++ x :: l2).dropWhile p = x :: l2 := by
  intro l1
  induction l1 with
  | nil =>
    intro x l2 _ hx
    constructor
    · simp [List.takeWhile, hx]
    · simp [List.dropWhile, hx]
  | cons c cs ih =>
    intro x l2 hall hx
    have hc : p c = true := hall c (by simp)
    obtain ⟨ht, hd⟩ := ih x l2 (fun d hd => hall d (by simp [hd])) hx
    constructor
    · simp only [List.cons_append, List.takeWhile_cons, hc, if_true, ht]
    · simp only [List.cons_append, List.dropWhile_cons, hc, if_true, hd]

theorem lastCsv_append :
    ∀ n : List Char, lastCsv (n ++ (".csv").data) = some n := by
  intro n
  induction n with
  | nil => rfl
  | cons c cs ih =>
    show lastCsv (c :: (cs ++ (".csv").data)) = some (c :: cs)
    rw [lastCsv, ih]

/-- The builder's name derivation inverts the fetcher's filename scheme
for a nonempty digit ZIP and a nonempty normalization-fixed craving. -/
theorem buildCollectionName_roundtrip (zip_code nc : String)
    (hdig : zip_code.data.all Char.isDigit = true)
    (hzlen : zip_code.data ≠ [])
    (hchar : ∀ c ∈ nc.data, isLA c = true ∨ c = '_')
    (hid : normalize_craving nc = nc)
    (hne : nc.data ≠ []) :
    buildCollectionName (fetchCsvBasename zip_code nc) (some zip_code) =
      collectionNameFor zip_code nc := by
  have hneS : nc ≠ "" := by
    intro h
    exact hne (by rw [h])
  have hbd : (fetchCsvBasename zip_code nc).data =
      ("restaurants_").data ++
        (zip_code.data ++ ('_' :: (nc.data ++ (".csv").data))) := by
    unfold fetchCsvBasename
    rw [if_neg hneS, hid]
    simp only [String.data_append, List.append_assoc, List.singleton_append, List.cons_append, List.nil_append]
  obtain ⟨htw, hdw⟩ := takeWhile_append_of_all zip_code.data '_'
    (nc.data ++ (".csv").data)
    (fun c hc => List.all_eq_true.mp hdig c hc) (by decide)
  have hzE : zip_code.data.isEmpty = false := by
    cases hz : zip_code.data with
    | nil => exact absurd hz hzlen
    | cons a l => rfl
  have hext : csvExtract (fetchCsvBasename zip_code nc).data =
      some (zip_code.data, nc.data) := by
    rw [hbd]
    unfold csvExtract
    rw [dropLit_append]
    dsimp only
    rw [htw, hdw]
    rw [if_neg (by rw [hzE]; exact Bool.noConfusion)]
    have hu : underscoreOpt ('_' :: (nc.data ++ (".csv").data)) =
        nc.data ++ (".csv").data := rfl
    rw [hu, lastCsv_append]
  have hstripnc : pyStripChars nc.data = nc.data := by
    unfold pyStripChars
    refine stripBoth_eq_self ?_ ?_
    · intro a ha
      exact not_ws_of_charset (hchar a (List.mem_of_mem_head? ha))
    · intro a ha
      exact not_ws_of_charset (hchar a (List.mem_of_mem_getLast? ha))
  have hsafe : buildSafe nc.data = nc.data := by
    unfold buildSafe
    rw [hstripnc, if_neg hne]
    have hmk : (⟨nc.data⟩ : String) = nc := rfl
    rw [hmk, hid]
  have hbuild : buildCollectionName (fetchCsvBasename zip_code nc)
      (some zip_code) =
      ⟨("restaurants_").data ++ zip_code.data ++ ('_' :: nc.data)⟩ := by
    unfold buildCollectionName
    rw [hext]
    dsimp only
    rw [hsafe, if_neg hne]
  rw [hbuild]
  unfold collectionNameFor
  rw [hid, if_neg hneS]
  apply String.ext
  simp only [String.data_append, List.append_assoc]
  rfl

/-- C10: for any 5-digit ZIP and any craving with nonempty
normalization, the name `get_collection_for_zip` looks up equals the name
`build_vector_store` derives from the CSV basename `fetch_restaurants`
writes for that ZIP and normalized craving; and the precondition is
needed — with an empty normalization the fetcher/builder substitute
"general" while the resolver omits the suffix, and the names differ. -/
theorem C10_collection_agreement :
    (∀ zip_code craving : String,
      zip_code.data.all Char.isDigit = true →
      zip_code.data.length = 5 →
      normalize_craving craving ≠ "" →
      collectionNameFor zip_code (normalize_craving craving) =
        buildCollectionName
          (fetchCsvBasename zip_code (normalize_craving craving))
          (some zip_code)) ∧
    collectionNameFor "98105" "" ≠
      buildCollectionName (fetchCsvBasename "98105" "") (some "98105") := by
  constructor
  · intro zip_code craving hdig hlen hne
    refine (buildCollectionName_roundtrip zip_code (normalize_craving craving)
      hdig ?_ (normalize_charset craving) (normalize_craving_idem craving)
      ?_).symm
    · intro h
      rw [h] at hlen
      exact absurd hlen (by decide)
    · intro h
      exact hne (String.ext h)
  · decide

/-- C10, witness for the agreement at a concrete ZIP and craving. -/
theorem C10_witness :
    collectionNameFor "98105" (normalize_craving "Mexican Tacos") =
      buildCollectionName
        (fetchCsvBasename "98105" (normalize_craving "Mexican Tacos"))
        (some "98105") :=
  C10_collection_agreement.1 "98105" "Mexican Tacos" (by decide) (by decide)
    (by decide)

end Dashbot
